import Mathlib

/-!
Verification development for the `st_read_multi` table-function extension:
a multi-source geospatial scan engine (GeoJSON / GeoPackage / Shapefile).
The definitions below are shallow embeddings of the Rust source
(`src/lib.rs`, `src/gpkg.rs`, `src/geojson.rs`, `src/utils.rs`,
`src/shapefile/encoding.rs`, `src/shapefile/datasource.rs`).
-/

/-! ## Data model (src/types.rs) -/

/-- `types.rs`: the closed column-type enumeration. -/
inductive ColumnType where
  | Boolean
  | Varchar
  | Double
  | Integer
  | Geometry
deriving DecidableEq, Repr

/-- `types.rs`: a named column with its type. -/
structure ColumnSpec where
  name : String
  column_type : ColumnType
deriving DecidableEq, Repr

/-- `types.rs`: DuckDB logical types used by this extension
(the image of `From<ColumnType> for LogicalTypeHandle` plus `Blob`). -/
inductive LogicalType where
  | Boolean
  | Varchar
  | Double
  | Integer
  | Blob
deriving DecidableEq, Repr

/-- `types.rs`: `From<ColumnType> for LogicalTypeHandle`. -/
def colTypeLogical : ColumnType → LogicalType
  | .Boolean => .Boolean
  | .Double => .Double
  | .Integer => .Integer
  | .Varchar => .Varchar
  | .Geometry => .Blob

/-- `types.rs`: the mutable scan position. -/
structure Cursor where
  source_idx : Nat
  offset : Nat
deriving DecidableEq, Repr

/-- `types.rs`: `Cursor::new()`. -/
def Cursor.new : Cursor := ⟨0, 0⟩

/-- `lib.rs`: the fixed data-chunk capacity. -/
def VECTOR_SIZE : Nat := 2048

/-! ## GeoPackage geometry envelope codec (src/gpkg.rs, lines 161-174) -/

/-- `gpkg.rs`: the envelope-size table selected from bits 1-3 of the flags
byte (`flags & 0b00001110`); `none` models the `_ => return &[]` arm. -/
def envelopeSizeOfFlags (flags : Nat) : Option Nat :=
  if flags &&& 14 = 0 then some 0        -- no envelope
  else if flags &&& 14 = 2 then some 32  -- [minx, maxx, miny, maxy]
  else if flags &&& 14 = 4 then some 48  -- [minx, maxx, miny, maxy, minz, maxz]
  else if flags &&& 14 = 6 then some 48  -- [minx, maxx, miny, maxy, minm, maxm]
  else if flags &&& 14 = 8 then some 64  -- [minx, maxx, miny, maxy, minz, maxz, minm, maxm]
  else none                              -- invalid

/-- `gpkg.rs`: `gpkg_geometry_to_wkb`.  Bytes are modelled as `Nat`s.
`none` models a Rust index/slice panic (`b[3]` on a short slice, or
`&b[offset..]` with `offset > b.len()`); `some []` is the explicit empty
slice returned for an invalid flags pattern. -/
def gpkg_geometry_to_wkb (b : List Nat) : Option (List Nat) :=
  match b.get? 3 with
  | none => none
  | some flags =>
    match envelopeSizeOfFlags flags with
    | none => some []
    | some es =>
      if 8 + es ≤ b.length then some (b.drop (8 + es)) else none

/-! ## GeoPackage integer narrowing (src/lib.rs, Gpkg branch, ColumnType::Integer) -/

/-- `lib.rs`: the semantics of Rust `v as i32` applied to an `i64` value:
keep the low 32 bits and reinterpret them as two's complement. -/
def rust_i64_as_i32 (v : Int) : Int :=
  let low := v % (2 ^ 32 : Int)
  if low < 2 ^ 31 then low else low - 2 ^ 32

/-- `lib.rs` (Gpkg branch, `ColumnType::Integer`): the value written into the
output batch for an SQLite integer cell; `none` is an SQL NULL (`set_null`). -/
def gpkgIntegerCell (val : Option Int) : Option Int :=
  val.map rust_i64_as_i32

/-! ## Streaming scan cursor (src/lib.rs, `StReadMultiVTab::func`)

Each data source is modelled by its ordered list of rows (row contents are
an opaque type `α`; the per-cell materialization is orthogonal to the cursor
logic).  A step returns the updated cursor and the batch of rows emitted, in
emission order.  The host protocol (DuckDB) treats an empty batch as
end-of-scan. -/

/-- `lib.rs`, GeoJSON branch of `func` (lines 202-272): slice
`source.features[offset .. min (offset + VECTOR_SIZE) len]`, then advance the
cursor — to the next source when the slice reached the end of the features. -/
def geoJsonStep {α : Type} (sources : List (List α)) (c : Cursor) :
    Cursor × List α :=
  match sources.get? c.source_idx with
  | none => (c, [])   -- no remaining data source: tell DuckDB it is over
  | some source =>
    let range_end := min (c.offset + VECTOR_SIZE) source.length
    let last := source.length ≤ range_end
    let batch := (source.drop c.offset).take (range_end - c.offset)
    if last then (⟨c.source_idx + 1, 0⟩, batch)
    else (⟨c.source_idx, c.offset + VECTOR_SIZE⟩, batch)

/-- `lib.rs`, Shapefile branch of `func` (lines 389-467): structurally the
same slicing over `source.rows` as the GeoJSON branch. -/
def shapefileStep {α : Type} (sources : List (List α)) (c : Cursor) :
    Cursor × List α :=
  match sources.get? c.source_idx with
  | none => (c, [])
  | some source =>
    let range_end := min (c.offset + VECTOR_SIZE) source.length
    let last := source.length ≤ range_end
    let batch := (source.drop c.offset).take (range_end - c.offset)
    if last then (⟨c.source_idx + 1, 0⟩, batch)
    else (⟨c.source_idx, c.offset + VECTOR_SIZE⟩, batch)

/-- Modelled from the spec: `Connection::fetch_rows` (referenced from
`lib.rs` but its defining module is not part of the sources here) — per
§4.6 of the spec it reads up to `batch_capacity = VECTOR_SIZE` rows of the
current source starting at `offset`. -/
def gpkgFetchRows {α : Type} (source : List α) (offset : Nat) : List α :=
  (source.drop offset).take VECTOR_SIZE

/-- `lib.rs`, Gpkg branch of `func` (lines 277-384): the
`for source in &sources[cursor.source_idx..]` loop.  `rem` is the iterator's
remaining portion, kept in sync with `c.source_idx` (`rem =
sources.drop c.source_idx`).  On a 0-row fetch the loop advances to the next
source and `continue`s while sources remain; otherwise it returns the batch
and advances the cursor (next source when the batch was short, same source
with a bumped offset when the batch was full). -/
def gpkgStepAux {α : Type} (sourcesLen : Nat) (c : Cursor) :
    List (List α) → Cursor × List α
  | [] => (c, [])
  | source :: rest =>
    let rows := gpkgFetchRows source c.offset
    if rows.length = 0 then
      -- 0-row result: advance; continue only if any data source remains
      if c.source_idx + 1 < sourcesLen then
        gpkgStepAux sourcesLen ⟨c.source_idx + 1, 0⟩ rest
      else (⟨c.source_idx + 1, 0⟩, [])
    else if rows.length < VECTOR_SIZE then
      -- short batch: return it and proceed to the next data source
      (⟨c.source_idx + 1, 0⟩, rows)
    else
      -- full batch: return it and continue on the current data source
      (⟨c.source_idx, c.offset + rows.length⟩, rows)

/-- `lib.rs`, Gpkg branch of `func`: terminal check, then the source loop. -/
def gpkgStep {α : Type} (sources : List (List α)) (c : Cursor) :
    Cursor × List α :=
  if c.source_idx < sources.length then
    gpkgStepAux sources.length c (sources.drop c.source_idx)
  else (c, [])

/-- The host protocol: call `step` repeatedly from the initial cursor,
concatenating batches, and stop at the first empty batch (DuckDB treats an
empty chunk as unconditional end-of-scan).  `fuel` bounds the iteration. -/
def hostRunAux {α : Type} (step : Cursor → Cursor × List α) :
    Nat → Cursor → List α
  | 0, _ => []
  | fuel + 1, c =>
    let out := step c
    if out.2.isEmpty then [] else out.2 ++ hostRunAux step fuel out.1

/-- The stream a host sees from a GeoJSON-branch scan. -/
def runHostGeoJson {α : Type} (sources : List (List α)) (fuel : Nat) : List α :=
  hostRunAux (geoJsonStep sources) fuel Cursor.new

/-- The stream a host sees from a Gpkg-branch scan. -/
def runHostGpkg {α : Type} (sources : List (List α)) (fuel : Nat) : List α :=
  hostRunAux (gpkgStep sources) fuel Cursor.new

/-! ## Schema validation (src/utils.rs, `validate_schema`) -/

/-- `utils.rs`: the `{:?}` rendering of a `ColumnType` in error messages. -/
def columnTypeDebug : ColumnType → String
  | .Boolean => "Boolean"
  | .Varchar => "Varchar"
  | .Double => "Double"
  | .Integer => "Integer"
  | .Geometry => "Geometry"

/-- `utils.rs`: the indexed column-by-column comparison loop of
`validate_schema` (zip + enumerate). -/
def validateColumns (filePath : String) : Nat → List (ColumnSpec × ColumnSpec) → Except String Unit
  | _, [] => .ok ()
  | i, (e, l) :: rest =>
    if e.name ≠ l.name then
      .error ("Schema mismatch in " ++ filePath ++ ": column " ++ toString i
        ++ " has name \x27" ++ l.name ++ "\x27, expected \x27" ++ e.name ++ "\x27")
    else if e.column_type ≠ l.column_type then
      .error ("Schema mismatch in " ++ filePath ++ ": column \x27" ++ l.name
        ++ "\x27 has type " ++ columnTypeDebug l.column_type
        ++ ", expected " ++ columnTypeDebug e.column_type)
    else validateColumns filePath (i + 1) rest

/-- `utils.rs`: `validate_schema` — column-count check, then positional
name/type comparison (the code comment assumes both inputs are sorted by
name; the comparison itself is positional). -/
def validate_schema (existing locals : List ColumnSpec) (filePath : String) :
    Except String Unit :=
  if existing.length ≠ locals.length then
    .error ("Schema mismatch in " ++ filePath ++ ": expected "
      ++ toString existing.length ++ " columns, found " ++ toString locals.length)
  else validateColumns filePath 0 (existing.zip locals)

/-! ## Path classification and bind dispatch (src/utils.rs, src/lib.rs) -/

/-- Characters after the last slash of a path (Rust `Path::file_name`,
restricted to the plain-file shapes used here). -/
def lastComponentAux (acc : List Char) : List Char → List Char
  | [] => acc.reverse
  | c :: rest => if c = '/' then lastComponentAux [] rest else lastComponentAux (c :: acc) rest

/-- Characters after the last dot, if any dot occurs. -/
def afterLastDot : List Char → Option (List Char)
  | [] => none
  | c :: rest =>
    match afterLastDot rest with
    | some e => some e
    | none => if c = '.' then some rest else none

/-- Rust `Path::extension`: the part of the file name after its last dot;
`none` when there is no dot or when the only dot is the leading dot of a
hidden file. -/
def extensionOf (p : String) : Option (List Char) :=
  match lastComponentAux [] p.data with
  | [] => none
  | c :: rest => if c = '.' then afterLastDot rest else afterLastDot (c :: rest)

/-- `utils.rs`: `is_geojson`. -/
def is_geojson (p : String) : Bool := extensionOf p = some "geojson".data

/-- `utils.rs`: `is_gpkg`. -/
def is_gpkg (p : String) : Bool := extensionOf p = some "gpkg".data

/-- Modelled from the spec: `is_shp` is referenced from `lib.rs` but missing
from the `utils.rs` in these sources; per the spec it is the same
extension-based classification for `.shp` files. -/
def is_shp (p : String) : Bool := extensionOf p = some "shp".data

/-- The format a successful bind dispatches to. -/
inductive FormatClass where
  | geojson
  | gpkg
  | shapefile
deriving DecidableEq, Repr

/-- `lib.rs`, `StReadMultiVTab::bind`: the format dispatch over the already
glob-expanded path list — a scan is GeoJSON/Gpkg/Shapefile only when *all*
paths have that extension, otherwise bind fails. -/
def bindFormatClass (paths : List String) : Except String FormatClass :=
  if paths.isEmpty then
    .error "doesn\x27t match to any file"
  else if paths.all is_geojson then .ok .geojson
  else if paths.all is_gpkg then .ok .gpkg
  else if paths.all is_shp then .ok .shapefile
  else .error "All files must have extension \x27.geojson\x27, \x27.gpkg\x27, or \x27.shp\x27"

/-! ## Declared output columns per format (src/lib.rs, `bind` branches) -/

/-- `lib.rs`, GeoJSON branch of `bind` (lines 82-88): `geometry` blob first,
then the unified specs, then `.filename`. -/
def declaredColumnsGeoJson (specs : List ColumnSpec) : List (String × LogicalType) :=
  ("geometry", .Blob) :: specs.map (fun s => (s.name, colTypeLogical s.column_type))
    ++ [(".filename", .Varchar)]

/-- `lib.rs`, Gpkg branch of `bind` (lines 123-131): only the specs (no
separate geometry column), then `.filename` and `.layer`. -/
def declaredColumnsGpkg (specs : List ColumnSpec) : List (String × LogicalType) :=
  specs.map (fun s => (s.name, colTypeLogical s.column_type))
    ++ [(".filename", .Varchar), (".layer", .Varchar)]

/-- `lib.rs`, Shapefile branch of `bind` (lines 163-168): same shape as the
GeoJSON branch. -/
def declaredColumnsShapefile (specs : List ColumnSpec) : List (String × LogicalType) :=
  ("geometry", .Blob) :: specs.map (fun s => (s.name, colTypeLogical s.column_type))
    ++ [(".filename", .Varchar)]

/-! ## ASCII uppercasing (Rust `to_uppercase` / `to_ascii_uppercase` on the
ASCII-only inputs used by this codebase) -/

/-- ASCII uppercasing of one character (Rust `to_ascii_uppercase`). -/
def asciiUpperChar (c : Char) : Char :=
  if 'a' ≤ c ∧ c ≤ 'z' then Char.ofNat (c.toNat - 32) else c

/-- ASCII uppercasing of a string.  (`gpkg.rs` uses Rust `to_uppercase`,
which agrees with this on the ASCII SQL type names it is applied to.) -/
def asciiUpperString (s : String) : String :=
  ⟨s.data.map asciiUpperChar⟩

/-! ## GeoPackage column metadata (src/gpkg.rs, `Gpkg::get_column_specs`) -/

/-- `gpkg.rs`: the declared-SQL-type → `ColumnType` table of
`get_column_specs` (GeoPackage §_sqlite_container type names). -/
def sqlTypeToColumnType (s : String) : Except String ColumnType :=
  match asciiUpperString s with
  | "TINYINT" | "SMALLINT" | "MEDIUMINT" | "INT" | "INTEGER" => .ok .Integer
  | "DOUBLE" | "FLOAT" | "REAL" => .ok .Double
  | "TEXT" => .ok .Varchar
  | "BOOLEAN" => .ok .Boolean
  | "GEOMETRY" | "POINT" | "LINESTRING" | "POLYGON" | "MULTIPOINT"
  | "MULTILINESTRING" | "MULTIPOLYGON" | "GEOMETRYCOLLECTION" => .ok .Geometry
  | other => .error ("Unexpected type " ++ other)

/-- `gpkg.rs`: `Gpkg::get_column_specs` — the table's column metadata
(`pragma_table_info` rows as (name, declared type) in table order) with the
`fid` row-identity column excluded, each type mapped through the table
above.  Note: the result keeps `pragma_table_info` order; it is *not*
sorted by name. -/
def gpkg_get_column_specs (cols : List (String × String)) :
    Except String (List ColumnSpec) :=
  (cols.filter (fun c => c.1 ≠ "fid")).mapM
    (fun c => (sqlTypeToColumnType c.2).map (fun t => ColumnSpec.mk c.1 t))

/-! ## GeoJSON schema inference (src/geojson.rs, `parse_and_split`) -/

/-- The kinds of `serde_json::Value` relevant to schema inference. -/
inductive JValue where
  | null
  | jbool (b : Bool)
  | num
  | str
  | arr
  | obj
deriving DecidableEq, Repr

/-- `geojson.rs`: `TryFrom<&serde_json::Value> for ColumnType` — boolean,
number and string map to a column type; everything else is an error (NULL is
handled by the caller before this conversion). -/
def tryColumnTypeOfJson : JValue → Except String ColumnType
  | .jbool _ => .ok .Boolean
  | .num => .ok .Double   -- integer/double detection deliberately not attempted
  | .str => .ok .Varchar
  | _ => .error "Unsupported type"

/-- A GeoJSON feature, reduced to its properties map in iteration order
(the geometry plays no part in schema inference). -/
def Feature := List (String × JValue)

/-- `geojson.rs`: the nested sampling loop of `parse_and_split`, flattened
over the (feature, property) pairs in iteration order.  The accumulator
models the `HashMap::entry(..).or_insert(..)` map as an insertion-ordered
association list: a key is inserted only when absent, NULL values are
skipped, and a non-null value of unsupported kind aborts with an error. -/
def propertyFold (m : List ColumnSpec) : List (String × JValue) → Except String (List ColumnSpec)
  | [] => .ok m
  | (key, val) :: rest =>
    if val = .null then propertyFold m rest
    else
      match tryColumnTypeOfJson val with
      | .error e => .error e
      | .ok t =>
        propertyFold (if m.any (fun s => s.name = key) then m else m ++ [⟨key, t⟩]) rest

/-- Lexicographic `≤` on character lists — the order Rust `String::cmp`
induces (byte-wise comparison of UTF-8 agrees with code-point order). -/
def charListLe : List Char → List Char → Bool
  | [], _ => true
  | _ :: _, [] => false
  | a :: as, b :: bs =>
    if a < b then true else if b < a then false else charListLe as bs

/-- Lexicographic `≤` on strings (Rust `String::cmp` as a `≤` test). -/
def strLe (a b : String) : Bool := charListLe a.data b.data

/-- Rust `Vec::sort_by(|a, b| a.name.cmp(&b.name))`, modelled by a stable
insertion sort on the lexicographic name order. -/
def sortByName (specs : List ColumnSpec) : List ColumnSpec :=
  List.insertionSort (fun a b => strLe a.name b.name) specs

/-- `geojson.rs`: `parse_and_split`'s schema-inference phase — sample the
first `min 100 features.length` features, build the name → type map (first
non-null occurrence wins), then sort the collected specs by name. -/
def inferSchemaGeoJson (features : List Feature) : Except String (List ColumnSpec) :=
  let sampleSize := min 100 features.length
  match propertyFold [] (features.take sampleSize).flatten with
  | .error e => .error e
  | .ok specs => .ok (sortByName specs)

/-- The first non-null value a property name takes among the sampled
(feature, property) pairs, in sampling order — the claim's notion of the
occurrence that establishes a column's type. -/
def firstNonNullValue (entries : List (String × JValue)) (n : String) : Option JValue :=
  ((entries.filter (fun kv => kv.1 = n ∧ kv.2 ≠ .null)).head?).map (fun kv => kv.2)

/-! ## Shapefile DBF text-encoding inference (src/shapefile/encoding.rs) -/

/-- The `encoding_rs` encodings selected by `parse_encoding_label`
(an external library; only the identity of the selection matters here). -/
inductive EncodingRs where
  | UTF_8
  | SHIFT_JIS
  | GBK
  | EUC_KR
  | BIG5
  | WINDOWS_1252
  | IBM866
  | WINDOWS_874
  | WINDOWS_1255
  | WINDOWS_1256
  | WINDOWS_1250
  | WINDOWS_1251
  | WINDOWS_1254
  | WINDOWS_1253
  | ISO_8859_2
  | ISO_8859_3
  | ISO_8859_4
  | ISO_8859_5
  | ISO_8859_6
  | ISO_8859_7
  | ISO_8859_8
  | ISO_8859_10
  | ISO_8859_13
  | ISO_8859_14
  | ISO_8859_15
  | ISO_8859_16
deriving DecidableEq, Repr

/-- `encoding_rs::Encoding::name()` (external library; values as published
by the WHATWG encoding standard that the library follows). -/
def EncodingRs.rsName : EncodingRs → String
  | .UTF_8 => "UTF-8"
  | .SHIFT_JIS => "Shift_JIS"
  | .GBK => "GBK"
  | .EUC_KR => "EUC-KR"
  | .BIG5 => "Big5"
  | .WINDOWS_1252 => "windows-1252"
  | .IBM866 => "IBM866"
  | .WINDOWS_874 => "windows-874"
  | .WINDOWS_1255 => "windows-1255"
  | .WINDOWS_1256 => "windows-1256"
  | .WINDOWS_1250 => "windows-1250"
  | .WINDOWS_1251 => "windows-1251"
  | .WINDOWS_1254 => "windows-1254"
  | .WINDOWS_1253 => "windows-1253"
  | .ISO_8859_2 => "ISO-8859-2"
  | .ISO_8859_3 => "ISO-8859-3"
  | .ISO_8859_4 => "ISO-8859-4"
  | .ISO_8859_5 => "ISO-8859-5"
  | .ISO_8859_6 => "ISO-8859-6"
  | .ISO_8859_7 => "ISO-8859-7"
  | .ISO_8859_8 => "ISO-8859-8"
  | .ISO_8859_10 => "ISO-8859-10"
  | .ISO_8859_13 => "ISO-8859-13"
  | .ISO_8859_14 => "ISO-8859-14"
  | .ISO_8859_15 => "ISO-8859-15"
  | .ISO_8859_16 => "ISO-8859-16"

/-- `encoding.rs`: the `InferredEncoding` struct. -/
structure InferredEncoding where
  encoding : EncodingRs
  name : String
deriving DecidableEq, Repr

/-- Rust `char::is_whitespace` (the Unicode `White_Space` set). -/
def rustIsWhitespace (c : Char) : Bool :=
  c = '\t' || c = '\n' || c = '\u000B' || c = '\u000C' || c = '\r' || c = ' '
    || c = '\u0085' || c = '\u00A0' || c = '\u1680'
    || (decide ('\u2000' ≤ c) && decide (c ≤ '\u200A'))
    || c = '\u2028' || c = '\u2029' || c = '\u202F' || c = '\u205F' || c = '\u3000'

/-- `encoding.rs`: the label normalization of `parse_encoding_label` —
`trim()`, then `trim_start_matches('\u{feff}')`, then
`to_ascii_uppercase()`. -/
def normalizeLabel (label : String) : String :=
  let trimmed := ((label.data.dropWhile rustIsWhitespace).reverse.dropWhile rustIsWhitespace).reverse
  let noBom := trimmed.dropWhile (fun c => c = '\uFEFF')
  ⟨noBom.map asciiUpperChar⟩

/-- Helper: the inferred encoding together with its library name
(`InferredEncoding { encoding: EncodingRs::from(enc), name: enc.name() }`). -/
def mkInferred (e : EncodingRs) : Option InferredEncoding :=
  some ⟨e, e.rsName⟩

/-- `encoding.rs`: `parse_encoding_label` — the normalized label matched
against the best-guess table of codepage IDs and mnemonic labels; any other
label yields `None`.  (The `"latin1"` arm is reproduced verbatim from the
source; it is unreachable after uppercasing, exactly as in the Rust code.) -/
def parse_encoding_label (label : String) : Option InferredEncoding :=
  match normalizeLabel label with
  | "UTF-8" | "65001" => mkInferred .UTF_8
  | "932" | "CP932" | "SHIFT_JIS" | "SJIS" => mkInferred .SHIFT_JIS
  | "936" | "CP936" | "GBK" => mkInferred .GBK
  | "949" | "CP949" | "EUC-KR" => mkInferred .EUC_KR
  | "BIG5" | "BIG-5" => mkInferred .BIG5
  | "latin1" => mkInferred .WINDOWS_1252
  | "866" | "CP866" => mkInferred .IBM866
  | "874" | "CP874" => mkInferred .WINDOWS_874
  | "1255" | "CP1255" => mkInferred .WINDOWS_1255
  | "1256" | "CP1256" => mkInferred .WINDOWS_1256
  | "1250" | "CP1250" => mkInferred .WINDOWS_1250
  | "1251" | "CP1251" | "ANSI 1251" => mkInferred .WINDOWS_1251
  | "1252" | "CP1252" => mkInferred .WINDOWS_1252
  | "1254" | "CP1254" => mkInferred .WINDOWS_1254
  | "1253" | "CP1253" => mkInferred .WINDOWS_1253
  | "ISO-8859-1" | "8859-1" | "88591" => mkInferred .WINDOWS_1252
  | "ISO-8859-2" | "8859-2" | "88592" => mkInferred .ISO_8859_2
  | "ISO-8859-3" | "8859-3" | "88593" => mkInferred .ISO_8859_3
  | "ISO-8859-4" | "8859-4" | "88594" => mkInferred .ISO_8859_4
  | "ISO-8859-5" | "8859-5" | "88595" => mkInferred .ISO_8859_5
  | "ISO-8859-6" | "8859-6" | "88596" => mkInferred .ISO_8859_6
  | "ISO-8859-7" | "8859-7" | "88597" => mkInferred .ISO_8859_7
  | "ISO-8859-8" | "8859-8" | "88598" => mkInferred .ISO_8859_8
  | "ISO-8859-9" | "8859-9" | "88599" => mkInferred .WINDOWS_1254
  | "ISO-8859-10" | "8859-10" | "885910" => mkInferred .ISO_8859_10
  | "ISO-8859-13" | "8859-13" | "885913" => mkInferred .ISO_8859_13
  | "ISO-8859-14" | "8859-14" | "885914" => mkInferred .ISO_8859_14
  | "ISO-8859-15" | "8859-15" | "885915" => mkInferred .ISO_8859_15
  | "ISO-8859-16" | "8859-16" | "885916" => mkInferred .ISO_8859_16
  | _ => none

/-- The full set of label spellings recognized by the table above (the
literals of the non-default match arms, in source order). -/
def recognizedEncodingLabels : List String :=
  ["UTF-8", "65001", "932", "CP932", "SHIFT_JIS", "SJIS", "936", "CP936", "GBK",
   "949", "CP949", "EUC-KR", "BIG5", "BIG-5", "latin1", "866", "CP866",
   "874", "CP874", "1255", "CP1255", "1256", "CP1256", "1250", "CP1250",
   "1251", "CP1251", "ANSI 1251", "1252", "CP1252", "1254", "CP1254",
   "1253", "CP1253",
   "ISO-8859-1", "8859-1", "88591", "ISO-8859-2", "8859-2", "88592",
   "ISO-8859-3", "8859-3", "88593", "ISO-8859-4", "8859-4", "88594",
   "ISO-8859-5", "8859-5", "88595", "ISO-8859-6", "8859-6", "88596",
   "ISO-8859-7", "8859-7", "88597", "ISO-8859-8", "8859-8", "88598",
   "ISO-8859-9", "8859-9", "88599", "ISO-8859-10", "8859-10", "885910",
   "ISO-8859-13", "8859-13", "885913", "ISO-8859-14", "8859-14", "885914",
   "ISO-8859-15", "8859-15", "885915", "ISO-8859-16", "8859-16", "885916"]

/-- `encoding.rs`: `infer_encoding_from_cpg`.  The sidecar file is modelled
as `Option String`: `none` covers both an absent `.cpg` file and an
unreadable one (`read_to_string(..).ok()?`). -/
def infer_encoding_from_cpg (cpg : Option String) : Option InferredEncoding :=
  match cpg with
  | none => none
  | some label => parse_encoding_label label

/-- `datasource.rs`: which DBF decoder the adapter opens. -/
inductive DbfDecoder where
  | default
  | withEncoding (e : EncodingRs)
deriving DecidableEq, Repr

/-- `datasource.rs`: `open_dbf_reader` — with an inferred encoding the DBF
is opened `from_path_with_encoding`, otherwise with the library's default
`from_path` decoding. -/
def open_dbf_reader (cpg_encoding : Option EncodingRs) : DbfDecoder :=
  match cpg_encoding with
  | some e => .withEncoding e
  | none => .default

/-- `datasource.rs`, `ShapefileDataSource::new`: the inference-to-open
pipeline (`infer_encoding_from_cpg` then `open_dbf_reader` on the mapped
`.encoding`). -/
def shapefileDecoderChoice (cpg : Option String) : DbfDecoder :=
  open_dbf_reader ((infer_encoding_from_cpg cpg).map (fun v => v.encoding))

/-! ## Spec-side model of the declared-output-column claim (for refinement
comparison with the `bind` branches above) -/

/-- Modelled from the spec (§6 declared output contract, and claim C4's
wording): a geometry (binary) column first whenever the format carries
geometry, then the unified schema's columns in name-sorted order, then a
trailing `filename` (text) column, then — for multi-layer formats only — a
trailing `layer` (text) column. -/
def specDeclaredColumns (carriesGeometry multiLayer : Bool)
    (schema : List ColumnSpec) : List (String × LogicalType) :=
  (if carriesGeometry then [("geometry", LogicalType.Blob)] else [])
    ++ (sortByName schema).map (fun s => (s.name, colTypeLogical s.column_type))
    ++ [("filename", LogicalType.Varchar)]
    ++ (if multiLayer then [("layer", LogicalType.Varchar)] else [])

/-- Decidable equality on `Except` results, for evaluating the embedded
functions at concrete inputs. -/
instance {ε α : Type} [DecidableEq ε] [DecidableEq α] : DecidableEq (Except ε α) := fun a b =>
  match a, b with
  | .ok x, .ok y => if h : x = y then .isTrue (by rw [h]) else .isFalse (by simp [h])
  | .error x, .error y => if h : x = y then .isTrue (by rw [h]) else .isFalse (by simp [h])
  | .ok _, .error _ => .isFalse (by simp)
  | .error _, .ok _ => .isFalse (by simp)

/-- A concrete two-feature GeoJSON sample used to evaluate the inference
pipeline (spec §8 end-to-end scenario: properties `val1` number, `val2`
string). -/
def exFeatures : List Feature :=
  [[("val1", JValue.num), ("val2", JValue.str)], [("val1", JValue.num)]]

/-! # Theorems -/

/-- C1: the spec requires that a step reading zero rows from an exhausted
source that is not the last source must not surface an empty batch but keep
pulling from the next source.  The Gpkg branch implements this (its source
loop), but the GeoJSON branch does not: on sources with 1, 0 and 1 rows the
step taken at the empty interior source returns a 0-row batch, the host
treats it as end-of-scan, and the third source's row is lost — the scan
yields `[10]` instead of all rows `[10, 20]`.  The same slicing logic is
used by the Shapefile branch. -/
theorem geojson_step_truncates_on_empty_interior_source :
    runHostGpkg [[10], [], [20]] 10 = [10, 20] ∧
    runHostGeoJson ([[10], [], [20]] : List (List Nat)) 10 = [10] ∧
    geoJsonStep ([[10], [], [20]] : List (List Nat)) ⟨1, 0⟩ = (⟨2, 0⟩, []) ∧
    shapefileStep ([[10], [], [20]] : List (List Nat)) ⟨1, 0⟩ = (⟨2, 0⟩, []) ∧
    gpkgStep ([[10], [], [20]] : List (List Nat)) ⟨1, 0⟩ = (⟨3, 0⟩, [20]) := by
  decide

/-- C2: the claimed batch-capacity invariant (`1 ≤ row_count ≤ VECTOR_SIZE`
for every non-terminal batch, `0` only in the terminal state) is violated by
the GeoJSON and Shapefile branches: over a single source with zero rows the
step taken at cursor `(0, 0)` — a non-terminal state, since
`source_idx = 0 < 1 = number of sources` — produces a 0-row batch.  The
Gpkg branch instead ends in the terminal state before returning its empty
batch. -/
theorem geojson_step_zero_rows_before_terminal :
    Cursor.new.source_idx < ([([] : List Nat)]).length ∧
    (geoJsonStep [([] : List Nat)] Cursor.new).2.length = 0 ∧
    (shapefileStep [([] : List Nat)] Cursor.new).2.length = 0 ∧
    (geoJsonStep [([] : List Nat)] Cursor.new).1.source_idx = 1 ∧
    (gpkgStep [([] : List Nat)] Cursor.new) = (⟨1, 0⟩, []) := by
  decide

/-- Helper: the envelope-size table yields `none` exactly off the five valid
bit patterns. -/
theorem envelopeSizeOfFlags_eq_none {flags : Nat}
    (h0 : flags &&& 14 ≠ 0) (h2 : flags &&& 14 ≠ 2) (h4 : flags &&& 14 ≠ 4)
    (h6 : flags &&& 14 ≠ 6) (h8 : flags &&& 14 ≠ 8) :
    envelopeSizeOfFlags flags = none := by
  simp [envelopeSizeOfFlags, h0, h2, h4, h6, h8]

/-- C3: for a blob long enough to hold the 8-byte header plus the envelope
selected by bits 1-3 of the flags byte `b[3]`, `gpkg_geometry_to_wkb`
returns the suffix from offset `8 + envelope_size` (pattern `000` → offset 8,
`001` → 40, `010` → 56, `011` → 56, `100` → 72, i.e. envelope sizes
0/32/48/48/64); any other bit pattern yields the empty slice. -/
theorem gpkg_envelope_offsets (b : List Nat) (flags : Nat)
    (h3 : b.get? 3 = some flags) :
    (flags &&& 14 = 0 → 8 ≤ b.length → gpkg_geometry_to_wkb b = some (b.drop 8)) ∧
    (flags &&& 14 = 2 → 40 ≤ b.length → gpkg_geometry_to_wkb b = some (b.drop 40)) ∧
    (flags &&& 14 = 4 → 56 ≤ b.length → gpkg_geometry_to_wkb b = some (b.drop 56)) ∧
    (flags &&& 14 = 6 → 56 ≤ b.length → gpkg_geometry_to_wkb b = some (b.drop 56)) ∧
    (flags &&& 14 = 8 → 72 ≤ b.length → gpkg_geometry_to_wkb b = some (b.drop 72)) ∧
    (flags &&& 14 ≠ 0 → flags &&& 14 ≠ 2 → flags &&& 14 ≠ 4 → flags &&& 14 ≠ 6 →
      flags &&& 14 ≠ 8 → gpkg_geometry_to_wkb b = some []) := by
  have main : ∀ es, envelopeSizeOfFlags flags = some es → 8 + es ≤ b.length →
      gpkg_geometry_to_wkb b = some (b.drop (8 + es)) := by
    intro es hes hlen
    simp only [gpkg_geometry_to_wkb, h3, hes]
    rw [if_pos hlen]
  refine ⟨?_, ?_, ?_, ?_, ?_, ?_⟩
  · intro heq hlen
    simpa using main 0 (by simp [envelopeSizeOfFlags, heq]) (by omega)
  · intro heq hlen
    simpa using main 32 (by simp [envelopeSizeOfFlags, heq]) (by omega)
  · intro heq hlen
    simpa using main 48 (by simp [envelopeSizeOfFlags, heq]) (by omega)
  · intro heq hlen
    simpa using main 48 (by simp [envelopeSizeOfFlags, heq]) (by omega)
  · intro heq hlen
    simpa using main 64 (by simp [envelopeSizeOfFlags, heq]) (by omega)
  · intro h0 h2 h4 h6 h8
    simp only [gpkg_geometry_to_wkb, h3, envelopeSizeOfFlags_eq_none h0 h2 h4 h6 h8]

/-- Witness for C3: a 41-byte blob with flags `0b00000010` (envelope pattern
`001`, 32 bytes) yields the suffix from offset 40. -/
theorem gpkg_envelope_offsets_witness :
    gpkg_geometry_to_wkb ([71, 80, 0, 2] ++ List.replicate 37 9)
      = some (([71, 80, 0, 2] ++ List.replicate 37 9).drop 40) :=
  (gpkg_envelope_offsets ([71, 80, 0, 2] ++ List.replicate 37 9) 2
    (by decide)).2.1 (by decide) (by decide)

/-- C9: `gpkg_geometry_to_wkb` is partial — it reads `b[3]` and slices at
`8 + envelope_size` unconditionally.  Every input shorter than 4 bytes
panics (modelled as `none`), every input whose flags select a valid
envelope size but whose length is below `8 + envelope_size` panics, and
under the precondition `8 + envelope_size ≤ length` the function is total
(returns a value). -/
theorem gpkg_geometry_to_wkb_partiality (b : List Nat) :
    (b.length < 4 → gpkg_geometry_to_wkb b = none) ∧
    (∀ flags es, b.get? 3 = some flags → envelopeSizeOfFlags flags = some es →
      (b.length < 8 + es → gpkg_geometry_to_wkb b = none) ∧
      (8 + es ≤ b.length → ∃ r, gpkg_geometry_to_wkb b = some r)) := by
  constructor
  · intro hlen
    have h3 : b.get? 3 = none := by
      rw [List.get?_eq_none]
      omega
    simp only [gpkg_geometry_to_wkb, h3]
  · intro flags es h3 hes
    constructor
    · intro hlt
      simp only [gpkg_geometry_to_wkb, h3, hes]
      rw [if_neg (by omega)]
    · intro hle
      simp only [gpkg_geometry_to_wkb, h3, hes]
      rw [if_pos hle]
      exact ⟨_, rfl⟩

/-- Witness for C9: the 3-byte input `[71, 80, 0]` panics (too short to read
the flags byte), and the 4-byte header `[71, 80, 0, 2]` panics because its
envelope needs the input to be 40 bytes long. -/
theorem gpkg_geometry_to_wkb_partiality_witness :
    gpkg_geometry_to_wkb [71, 80, 0] = none ∧ gpkg_geometry_to_wkb [71, 80, 0, 2] = none :=
  ⟨(gpkg_geometry_to_wkb_partiality [71, 80, 0]).1 (by decide),
   ((gpkg_geometry_to_wkb_partiality [71, 80, 0, 2]).2 2 32 (by decide) (by decide)).1 (by decide)⟩

/-- C10: in the GeoPackage scan an SQLite 64-bit integer is written through
`v as i32`: the stored value is reduced modulo `2^32` into the `i32` range
`[-2^31, 2^31)` — values inside the range are preserved, values outside
wrap around silently (e.g. `v ∈ [2^31, 2^32)` becomes `v - 2^32`), and an
SQL NULL stays NULL. -/
theorem gpkg_integer_narrowing (v : Int) :
    gpkgIntegerCell (some v) = some (rust_i64_as_i32 v) ∧
    gpkgIntegerCell none = none ∧
    rust_i64_as_i32 v % 2 ^ 32 = v % 2 ^ 32 ∧
    -(2 ^ 31) ≤ rust_i64_as_i32 v ∧ rust_i64_as_i32 v < 2 ^ 31 ∧
    (-(2 ^ 31) ≤ v → v < 2 ^ 31 → rust_i64_as_i32 v = v) ∧
    (2 ^ 31 ≤ v → v < 2 ^ 32 → rust_i64_as_i32 v = v - 2 ^ 32) := by
  have h32 : (2 : Int) ^ 32 = 4294967296 := by norm_num
  have h31 : (2 : Int) ^ 31 = 2147483648 := by norm_num
  refine ⟨rfl, rfl, ?_, ?_, ?_, ?_, ?_⟩ <;>
    simp only [rust_i64_as_i32, h32, h31] <;> split <;> omega

/-- Witness for C10: an in-range value is preserved and `2^31 + 5` wraps to
`-2^31 + 5`. -/
theorem gpkg_integer_narrowing_witness :
    rust_i64_as_i32 7 = 7 ∧ rust_i64_as_i32 (2 ^ 31 + 5) = 2 ^ 31 + 5 - 2 ^ 32 :=
  ⟨(gpkg_integer_narrowing 7).2.2.2.2.2.1 (by norm_num) (by norm_num),
   (gpkg_integer_narrowing (2 ^ 31 + 5)).2.2.2.2.2.2 (by norm_num) (by norm_num)⟩

/-- C4 counterexample: for a GeoPackage bind over a layer whose
`pragma_table_info` columns are `att INTEGER, geom GEOMETRY`, the declared
column list starts with `("att", Integer)` — no leading binary `geometry`
column is added — and ends with `.filename` / `.layer` (dotted names), so it
differs from the claim's contract (geometry first, name-sorted schema, then
`filename` / `layer`). -/
theorem gpkg_declared_columns_not_geometry_first :
    declaredColumnsGpkg [⟨"att", .Integer⟩, ⟨"geom", .Geometry⟩]
      = [("att", .Integer), ("geom", .Blob), (".filename", .Varchar), (".layer", .Varchar)] ∧
    specDeclaredColumns true true [⟨"att", .Integer⟩, ⟨"geom", .Geometry⟩]
      = [("geometry", .Blob), ("att", .Integer), ("geom", .Blob),
         ("filename", .Varchar), ("layer", .Varchar)] ∧
    declaredColumnsGpkg [⟨"att", .Integer⟩, ⟨"geom", .Geometry⟩]
      ≠ specDeclaredColumns true true [⟨"att", .Integer⟩, ⟨"geom", .Geometry⟩] := by
  decide

/-- C4 (amended): the GeoJSON and Shapefile binds declare `geometry`
(binary) first, then the schema's columns, then a trailing `.filename`
(text) column; the GeoPackage bind declares exactly the inferred column
specs in their native order (its geometry column among them, under its
native name) followed by trailing `.filename` and `.layer` (text)
columns, with no separate leading geometry column. -/
theorem declared_columns_shape (specs : List ColumnSpec) :
    (declaredColumnsGeoJson specs).head? = some ("geometry", .Blob) ∧
    (declaredColumnsGeoJson specs).drop 1
      = specs.map (fun s => (s.name, colTypeLogical s.column_type)) ++ [(".filename", .Varchar)] ∧
    (declaredColumnsGeoJson specs).getLast? = some (".filename", .Varchar) ∧
    (declaredColumnsShapefile specs).head? = some ("geometry", .Blob) ∧
    (declaredColumnsShapefile specs).drop 1
      = specs.map (fun s => (s.name, colTypeLogical s.column_type)) ++ [(".filename", .Varchar)] ∧
    (declaredColumnsShapefile specs).getLast? = some (".filename", .Varchar) ∧
    (declaredColumnsGpkg specs).take specs.length
      = specs.map (fun s => (s.name, colTypeLogical s.column_type)) ∧
    (declaredColumnsGpkg specs).drop specs.length
      = [(".filename", .Varchar), (".layer", .Varchar)] := by
  refine ⟨rfl, rfl, ?_, rfl, rfl, ?_, ?_, ?_⟩
  · show (((("geometry", LogicalType.Blob) ::
        specs.map (fun s => (s.name, colTypeLogical s.column_type)))
        ++ [(".filename", LogicalType.Varchar)]).getLast?) = _
    rw [List.getLast?_append]
    rfl
  · show (((("geometry", LogicalType.Blob) ::
        specs.map (fun s => (s.name, colTypeLogical s.column_type)))
        ++ [(".filename", LogicalType.Varchar)]).getLast?) = _
    rw [List.getLast?_append]
    rfl
  · have h : specs.length = (specs.map (fun s => (s.name, colTypeLogical s.column_type))).length := by
      simp
    rw [declaredColumnsGpkg, h, List.take_left]
  · have h : specs.length = (specs.map (fun s => (s.name, colTypeLogical s.column_type))).length := by
      simp
    rw [declaredColumnsGpkg, h, List.drop_left]

/-- C5: schema unification fails on GeoPackage sources whose identical
column sets appear in different native (table) order.  `get_column_specs`
returns columns in `pragma_table_info` order without sorting, while
`validate_schema` compares position by position, so two files with the same
name→type set but different declaration order produce a mismatch error
(naming the file).  The name-sorted comparison used by the GeoJSON and
Shapefile paths accepts the same pair, and a genuine type mismatch on
sorted schemas is still rejected with the offending file named. -/
theorem gpkg_schema_order_sensitivity :
    gpkg_get_column_specs [("fid", "INTEGER"), ("geom", "POINT"), ("b", "TEXT"), ("a", "INT")]
      = .ok [⟨"geom", .Geometry⟩, ⟨"b", .Varchar⟩, ⟨"a", .Integer⟩] ∧
    gpkg_get_column_specs [("fid", "INTEGER"), ("geom", "POINT"), ("a", "INT"), ("b", "TEXT")]
      = .ok [⟨"geom", .Geometry⟩, ⟨"a", .Integer⟩, ⟨"b", .Varchar⟩] ∧
    List.Perm [⟨"geom", .Geometry⟩, ⟨"b", .Varchar⟩, ⟨"a", .Integer⟩]
      ([⟨"geom", .Geometry⟩, ⟨"a", .Integer⟩, ⟨"b", .Varchar⟩] : List ColumnSpec) ∧
    validate_schema [⟨"geom", .Geometry⟩, ⟨"b", .Varchar⟩, ⟨"a", .Integer⟩]
      [⟨"geom", .Geometry⟩, ⟨"a", .Integer⟩, ⟨"b", .Varchar⟩] "file2.gpkg"
      = .error "Schema mismatch in file2.gpkg: column 1 has name \x27a\x27, expected \x27b\x27" ∧
    validate_schema (sortByName [⟨"geom", .Geometry⟩, ⟨"b", .Varchar⟩, ⟨"a", .Integer⟩])
      (sortByName [⟨"geom", .Geometry⟩, ⟨"a", .Integer⟩, ⟨"b", .Varchar⟩]) "file2.gpkg"
      = .ok () ∧
    validate_schema [⟨"a", .Integer⟩] [⟨"a", .Double⟩] "bad.geojson"
      = .error "Schema mismatch in bad.geojson: column \x27a\x27 has type Double, expected Integer" := by
  decide

/-- C6 counterexample: a two-file input mixing formats (one `.geojson`, one
`.gpkg`) does not bind — `bind` requires all files to share one extension
and rejects the mix with its fixed error. -/
theorem bind_mixed_formats_counterexample :
    bindFormatClass ["a.geojson", "b.gpkg"]
      = .error "All files must have extension \x27.geojson\x27, \x27.gpkg\x27, or \x27.shp\x27" := by
  decide

/-- Helper: a path has at most one extension, so the three format
predicates are pairwise exclusive. -/
theorem extension_classifiers_exclusive (p : String) :
    (is_geojson p = true → is_gpkg p = false ∧ is_shp p = false) ∧
    (is_gpkg p = true → is_geojson p = false ∧ is_shp p = false) ∧
    (is_shp p = true → is_geojson p = false ∧ is_gpkg p = false) := by
  refine ⟨fun h => ⟨?_, ?_⟩, fun h => ⟨?_, ?_⟩, fun h => ⟨?_, ?_⟩⟩ <;>
    [rw [is_geojson, decide_eq_true_eq] at h; rw [is_geojson, decide_eq_true_eq] at h;
     rw [is_gpkg, decide_eq_true_eq] at h; rw [is_gpkg, decide_eq_true_eq] at h;
     rw [is_shp, decide_eq_true_eq] at h; rw [is_shp, decide_eq_true_eq] at h] <;>
    [rw [is_gpkg]; rw [is_shp]; rw [is_geojson]; rw [is_shp]; rw [is_geojson]; rw [is_gpkg]] <;>
    rw [decide_eq_false_iff_not] <;>
    intro hb <;>
    rw [h, Option.some.injEq] at hb <;>
    exact absurd hb (by decide)

/-- C6 (amended): bind accepts a path list only when every file shares one
of the three supported extensions.  Whenever the list contains two files of
different formats — any of the three possible mixes (`.geojson`/`.gpkg`,
`.geojson`/`.shp`, `.gpkg`/`.shp`) — bind fails with the fixed
all-files-must-share-an-extension error; and conversely every successful
bind classifies a nonempty list all of whose files carry the extension of
the chosen format. -/
theorem bind_single_format_only (paths : List String) :
    (∀ p ∈ paths, ∀ q ∈ paths,
      ((is_geojson p = true ∧ is_gpkg q = true) ∨
        (is_geojson p = true ∧ is_shp q = true) ∨
        (is_gpkg p = true ∧ is_shp q = true)) →
      bindFormatClass paths
        = .error "All files must have extension \x27.geojson\x27, \x27.gpkg\x27, or \x27.shp\x27") ∧
    (∀ fc, bindFormatClass paths = .ok fc →
      paths ≠ [] ∧
      ((fc = .geojson ∧ ∀ p ∈ paths, is_geojson p = true) ∨
        (fc = .gpkg ∧ ∀ p ∈ paths, is_gpkg p = true) ∨
        (fc = .shapefile ∧ ∀ p ∈ paths, is_shp p = true))) := by
  have not_all : ∀ (f : String → Bool) (x : String), x ∈ paths → f x = false →
      ¬(paths.all f = true) := by
    intro f x hx hfx hall
    rw [List.all_eq_true] at hall
    have htrue := hall x hx
    rw [hfx] at htrue
    exact Bool.false_ne_true htrue
  constructor
  · intro p hp q hq hmix
    have hne : ¬(paths.isEmpty = true) := by
      intro h
      rw [List.isEmpty_iff] at h
      subst h
      exact (List.not_mem_nil p) hp
    have halls : ¬(paths.all is_geojson = true) ∧ ¬(paths.all is_gpkg = true) ∧
        ¬(paths.all is_shp = true) := by
      rcases hmix with ⟨hpg, hqk⟩ | ⟨hpg, hqs⟩ | ⟨hpk, hqs⟩
      · exact ⟨not_all _ q hq ((extension_classifiers_exclusive q).2.1 hqk).1,
          not_all _ p hp ((extension_classifiers_exclusive p).1 hpg).1,
          not_all _ p hp ((extension_classifiers_exclusive p).1 hpg).2⟩
      · exact ⟨not_all _ q hq ((extension_classifiers_exclusive q).2.2 hqs).1,
          not_all _ p hp ((extension_classifiers_exclusive p).1 hpg).1,
          not_all _ p hp ((extension_classifiers_exclusive p).1 hpg).2⟩
      · exact ⟨not_all _ p hp ((extension_classifiers_exclusive p).2.1 hpk).1,
          not_all _ q hq ((extension_classifiers_exclusive q).2.2 hqs).2,
          not_all _ p hp ((extension_classifiers_exclusive p).2.1 hpk).2⟩
    rw [bindFormatClass, if_neg hne, if_neg halls.1, if_neg halls.2.1, if_neg halls.2.2]
  · intro fc hok
    by_cases he : paths.isEmpty = true
    · rw [bindFormatClass, if_pos he] at hok
      exact absurd hok (by simp)
    · refine ⟨fun hnil => he (by rw [hnil]; rfl), ?_⟩
      by_cases h1 : paths.all is_geojson = true
      · rw [bindFormatClass, if_neg he, if_pos h1] at hok
        injection hok with hok
        exact Or.inl ⟨hok.symm, fun p hp => List.all_eq_true.mp h1 p hp⟩
      · by_cases h2 : paths.all is_gpkg = true
        · rw [bindFormatClass, if_neg he, if_neg h1, if_pos h2] at hok
          injection hok with hok
          exact Or.inr (Or.inl ⟨hok.symm, fun p hp => List.all_eq_true.mp h2 p hp⟩)
        · by_cases h3 : paths.all is_shp = true
          · rw [bindFormatClass, if_neg he, if_neg h1, if_neg h2, if_pos h3] at hok
            injection hok with hok
            exact Or.inr (Or.inr ⟨hok.symm, fun p hp => List.all_eq_true.mp h3 p hp⟩)
          · rw [bindFormatClass, if_neg he, if_neg h1, if_neg h2, if_neg h3] at hok
            exact absurd hok (by simp)

/-- Witness for C6's amended statement: both a `.geojson`/`.shp` mix and a
`.gpkg`/`.shp` mix are rejected, and a successful all-`.shp` bind
classifies every file as a shapefile. -/
theorem bind_single_format_only_witness :
    bindFormatClass ["a.geojson", "b.shp"]
      = .error "All files must have extension \x27.geojson\x27, \x27.gpkg\x27, or \x27.shp\x27" ∧
    bindFormatClass ["c.gpkg", "d.shp", "e.geojson"]
      = .error "All files must have extension \x27.geojson\x27, \x27.gpkg\x27, or \x27.shp\x27" ∧
    (["f.shp", "g.shp"] ≠ ([] : List String) ∧
      ((FormatClass.shapefile = .geojson ∧ ∀ p ∈ ["f.shp", "g.shp"], is_geojson p = true) ∨
        (FormatClass.shapefile = .gpkg ∧ ∀ p ∈ ["f.shp", "g.shp"], is_gpkg p = true) ∨
        (FormatClass.shapefile = .shapefile ∧ ∀ p ∈ ["f.shp", "g.shp"], is_shp p = true))) :=
  ⟨(bind_single_format_only ["a.geojson", "b.shp"]).1
      "a.geojson" (by decide) "b.shp" (by decide) (Or.inr (Or.inl ⟨by decide, by decide⟩)),
   (bind_single_format_only ["c.gpkg", "d.shp", "e.geojson"]).1
      "c.gpkg" (by decide) "d.shp" (by decide) (Or.inr (Or.inr ⟨by decide, by decide⟩)),
   (bind_single_format_only ["f.shp", "g.shp"]).2 .shapefile (by decide)⟩

set_option maxHeartbeats 3200000 in
/-- Helper: a label whose normalized (trimmed, BOM-stripped, upper-cased)
form is outside the recognized table yields `None`. -/
theorem parse_encoding_label_eq_none_of_unrecognized (label : String)
    (h : normalizeLabel label ∉ recognizedEncodingLabels) :
    parse_encoding_label label = none := by
  unfold parse_encoding_label
  split
  all_goals first
    | rfl
    | (rename_i heq; exact absurd (by rw [heq]; decide) h)

/-- C8: when the `.cpg` sidecar is absent (or unreadable) or its normalized
label is not in the recognized-label table, encoding inference returns
`None` and the adapter opens the DBF with the format library's default
decoder — an unrecognized label never produces an error, it silently
defers to the default decoding. -/
theorem cpg_unrecognized_label_defaults (cpg : Option String)
    (h : cpg = none ∨ ∃ label, cpg = some label ∧
        normalizeLabel label ∉ recognizedEncodingLabels) :
    infer_encoding_from_cpg cpg = none ∧ shapefileDecoderChoice cpg = .default := by
  rcases h with rfl | ⟨label, rfl, hl⟩
  · exact ⟨rfl, rfl⟩
  · have hp := parse_encoding_label_eq_none_of_unrecognized label hl
    refine ⟨?_, ?_⟩
    · simp [infer_encoding_from_cpg, hp]
    · simp [shapefileDecoderChoice, infer_encoding_from_cpg, hp, open_dbf_reader]

/-- Witness for C8: the unrecognized label `"FOOBAR"` (and the absent
sidecar) both fall back to the default decoder without error. -/
theorem cpg_unrecognized_label_defaults_witness :
    (infer_encoding_from_cpg (some "FOOBAR") = none ∧
      shapefileDecoderChoice (some "FOOBAR") = .default) ∧
    (infer_encoding_from_cpg none = none ∧ shapefileDecoderChoice none = .default) :=
  ⟨cpg_unrecognized_label_defaults (some "FOOBAR")
      (Or.inr ⟨"FOOBAR", rfl, by decide⟩),
   cpg_unrecognized_label_defaults none (Or.inl rfl)⟩

/-- Lexicographic character-list order is total. -/
theorem charListLe_total (a : List Char) : ∀ b, charListLe a b = true ∨ charListLe b a = true := by
  induction a with
  | nil => intro b; left; simp [charListLe]
  | cons x xs ih =>
    intro b
    cases b with
    | nil => right; simp [charListLe]
    | cons y ys =>
      rcases lt_trichotomy x y with hxy | hxy | hxy
      · left; simp [charListLe, hxy]
      · subst hxy
        rcases ih ys with h | h
        · left; simp [charListLe, h]
        · right; simp [charListLe, h]
      · right; simp [charListLe, hxy]

/-- Lexicographic character-list order is transitive. -/
theorem charListLe_trans (a : List Char) :
    ∀ b c, charListLe a b = true → charListLe b c = true → charListLe a c = true := by
  induction a with
  | nil => intro b c _ _; simp [charListLe]
  | cons x xs ih =>
    intro b c hab hbc
    cases b with
    | nil => simp [charListLe] at hab
    | cons y ys =>
      cases c with
      | nil => simp [charListLe] at hbc
      | cons z zs =>
        simp only [charListLe] at hab hbc ⊢
        rcases lt_trichotomy x y with hxy | hxy | hxy
        · rcases lt_trichotomy y z with hyz | hyz | hyz
          · simp [lt_trans hxy hyz]
          · subst hyz; simp [hxy]
          · rw [if_neg (lt_asymm hyz), if_pos hyz] at hbc
            exact absurd hbc (by simp)
        · subst hxy
          rcases lt_trichotomy x z with hyz | hyz | hyz
          · simp [hyz]
          · subst hyz
            rw [if_neg (lt_irrefl x), if_neg (lt_irrefl x)] at hab hbc ⊢
            exact ih ys zs hab hbc
          · rw [if_neg (lt_asymm hyz), if_pos hyz] at hbc
            exact absurd hbc (by simp)
        · rw [if_neg (lt_asymm hxy), if_pos hxy] at hab
          exact absurd hab (by simp)

/-- Unfolding `firstNonNullValue` over one (property, value) pair. -/
theorem firstNonNullValue_cons (k : String) (v : JValue) (rest : List (String × JValue))
    (n : String) :
    firstNonNullValue ((k, v) :: rest) n =
      if k = n ∧ v ≠ JValue.null then some v else firstNonNullValue rest n := by
  by_cases h : k = n ∧ v ≠ JValue.null
  · simp [firstNonNullValue, List.filter_cons, h]
  · simp [firstNonNullValue, List.filter_cons, h]

/-- The property-map fold of the GeoJSON sampler: a name/type pair is in the
final map iff it was already in the accumulator, or the accumulator does not
hold the name and the pair's type is the mapping of the name's first
non-null sampled value (first occurrence wins). -/
theorem propertyFold_ok_mem (entries : List (String × JValue)) :
    ∀ (acc m : List ColumnSpec), propertyFold acc entries = .ok m →
      ∀ n t, ColumnSpec.mk n t ∈ m ↔
        (ColumnSpec.mk n t ∈ acc ∨
          ((∀ s ∈ acc, s.name ≠ n) ∧
            ∃ v, firstNonNullValue entries n = some v ∧ tryColumnTypeOfJson v = .ok t)) := by
  induction entries with
  | nil =>
    intro acc m h n t
    simp only [propertyFold] at h
    injection h with h
    subst h
    simp [firstNonNullValue]
  | cons kv rest ih =>
    obtain ⟨key, val⟩ := kv
    intro acc m h n t
    by_cases hnull : val = JValue.null
    · subst hnull
      simp only [propertyFold, if_true] at h
      rw [firstNonNullValue_cons, if_neg (by simp)]
      exact ih acc m h n t
    · simp only [propertyFold, if_neg hnull] at h
      cases htry : tryColumnTypeOfJson val with
      | error e =>
        simp only [htry] at h
        exact absurd h (by simp)
      | ok t0 =>
        simp only [htry] at h
        by_cases hkey : (acc.any fun s => decide (s.name = key)) = true
        · rw [if_pos hkey] at h
          have H := ih acc m h n t
          rw [firstNonNullValue_cons]
          by_cases hkn : key = n
          · subst hkn
            have hex : ¬ (∀ s ∈ acc, s.name ≠ key) := by
              simp only [List.any_eq_true, decide_eq_true_eq] at hkey
              obtain ⟨s, hs, hsn⟩ := hkey
              intro hall
              exact hall s hs hsn
            rw [if_pos ⟨rfl, hnull⟩]
            constructor
            · intro hm
              rcases H.mp hm with hacc | ⟨hall, _⟩
              · exact Or.inl hacc
              · exact absurd hall hex
            · rintro (hacc | ⟨hall, _⟩)
              · exact H.mpr (Or.inl hacc)
              · exact absurd hall hex
          · rw [if_neg (fun hc => hkn hc.1)]
            exact H
        · rw [if_neg hkey] at h
          have H := ih (acc ++ [⟨key, t0⟩]) m h n t
          have hnone : ∀ s ∈ acc, s.name ≠ key := by
            simp only [List.any_eq_true, decide_eq_true_eq] at hkey
            push_neg at hkey
            exact hkey
          rw [firstNonNullValue_cons]
          by_cases hkn : key = n
          · subst hkn
            rw [if_pos ⟨rfl, hnull⟩]
            constructor
            · intro hm
              rcases H.mp hm with hacc' | ⟨hall, _⟩
              · rcases List.mem_append.mp hacc' with hacc | hsing
                · exact Or.inl hacc
                · have h12 := List.mem_singleton.mp hsing
                  injection h12 with _ h2
                  right
                  exact ⟨hnone, val, rfl, by rw [h2, htry]⟩
              · exfalso
                exact hall ⟨key, t0⟩
                  (List.mem_append.mpr (Or.inr (List.mem_singleton.mpr rfl))) rfl
            · rintro (hacc | ⟨hall, v, hv, htv⟩)
              · exact H.mpr (Or.inl (List.mem_append.mpr (Or.inl hacc)))
              · injection hv with hv'
                subst hv'
                rw [htry] at htv
                injection htv with ht'
                subst ht'
                exact H.mpr (Or.inl (List.mem_append.mpr
                  (Or.inr (List.mem_singleton.mpr rfl))))
          · rw [if_neg (fun hc => hkn hc.1)]
            constructor
            · intro hm
              rcases H.mp hm with hacc' | ⟨hall, hex⟩
              · rcases List.mem_append.mp hacc' with hacc | hsing
                · exact Or.inl hacc
                · exfalso
                  have h12 := List.mem_singleton.mp hsing
                  injection h12 with h1 _
                  exact hkn h1.symm
              · exact Or.inr ⟨fun s hs => hall s (List.mem_append.mpr (Or.inl hs)), hex⟩
            · rintro (hacc | ⟨hall, hex⟩)
              · exact H.mpr (Or.inl (List.mem_append.mpr (Or.inl hacc)))
              · refine H.mpr (Or.inr ⟨?_, hex⟩)
                intro s hs
                rcases List.mem_append.mp hs with hs' | hsing
                · exact hall s hs'
                · have h12 := List.mem_singleton.mp hsing
                  subst h12
                  simpa using fun h => hkn h

/-- If the sampling fold succeeds, every sampled non-null value had a
column-type mapping (a non-null value of any other JSON kind would have
aborted with an error). -/
theorem propertyFold_ok_sound (entries : List (String × JValue)) :
    ∀ (acc m : List ColumnSpec), propertyFold acc entries = .ok m →
      ∀ kv ∈ entries, kv.2 ≠ JValue.null → ∃ t, tryColumnTypeOfJson kv.2 = .ok t := by
  induction entries with
  | nil =>
    intro acc m _ kv hkv
    exact absurd hkv (List.not_mem_nil kv)
  | cons kv0 rest ih =>
    obtain ⟨key, val⟩ := kv0
    intro acc m h kv hkv hnn
    by_cases hnull : val = JValue.null
    · subst hnull
      simp only [propertyFold, if_true] at h
      rcases List.mem_cons.mp hkv with rfl | hkv'
      · exact absurd rfl hnn
      · exact ih acc m h kv hkv' hnn
    · simp only [propertyFold, if_neg hnull] at h
      cases htry : tryColumnTypeOfJson val with
      | error e =>
        simp only [htry] at h
        exact absurd h (by simp)
      | ok t0 =>
        simp only [htry] at h
        rcases List.mem_cons.mp hkv with rfl | hkv'
        · exact ⟨t0, htry⟩
        · exact ih _ m h kv hkv' hnn

/-- C7: a successfully inferred GeoJSON schema is sorted lexicographically
by name, and it contains exactly the property names that occur with a
non-null value among the first `min 100 count` sampled features, each typed
by its first non-null occurrence (nulls never establish a type), under the
mapping boolean → Boolean, number → Double, string → Varchar; every other
non-null JSON kind has no mapping and would instead have made inference
fail. -/
theorem geojson_schema_inference (features : List Feature) (specs : List ColumnSpec)
    (h : inferSchemaGeoJson features = .ok specs) :
    List.Sorted (fun a b : ColumnSpec => strLe a.name b.name = true) specs ∧
    (∀ n t, ColumnSpec.mk n t ∈ specs ↔
      ∃ v, firstNonNullValue ((features.take (min 100 features.length)).flatten) n = some v ∧
        tryColumnTypeOfJson v = .ok t) ∧
    (∀ kv ∈ (features.take (min 100 features.length)).flatten,
      kv.2 ≠ JValue.null → ∃ t, tryColumnTypeOfJson kv.2 = .ok t) ∧
    (∀ b, tryColumnTypeOfJson (.jbool b) = .ok .Boolean) ∧
    tryColumnTypeOfJson .num = .ok .Double ∧
    tryColumnTypeOfJson .str = .ok .Varchar := by
  have hfold : ∃ m, propertyFold [] ((features.take (min 100 features.length)).flatten) = .ok m
      ∧ specs = sortByName m := by
    unfold inferSchemaGeoJson at h
    cases hf : propertyFold [] ((features.take (min 100 features.length)).flatten) with
    | error e =>
      simp only [hf] at h
      exact absurd h (by simp)
    | ok m =>
      simp only [hf] at h
      injection h with h
      exact ⟨m, rfl, h.symm⟩
  obtain ⟨m, hm, hspecs⟩ := hfold
  subst hspecs
  refine ⟨?_, ?_, ?_, fun b => rfl, rfl, rfl⟩
  · haveI : IsTotal ColumnSpec (fun a b => strLe a.name b.name = true) :=
      ⟨fun a b => charListLe_total a.name.data b.name.data⟩
    haveI : IsTrans ColumnSpec (fun a b => strLe a.name b.name = true) :=
      ⟨fun a b c => charListLe_trans a.name.data b.name.data c.name.data⟩
    exact List.sorted_insertionSort _ m
  · intro n t
    rw [sortByName, List.mem_insertionSort]
    rw [propertyFold_ok_mem _ [] m hm n t]
    simp
  · exact propertyFold_ok_sound _ [] m hm

/-- Witness for C7 at the two-feature sample: inference yields
`[val1: Double, val2: Varchar]` and the theorem's conclusions hold for it. -/
theorem geojson_schema_inference_witness :
    List.Sorted (fun a b : ColumnSpec => strLe a.name b.name = true)
      ([⟨"val1", .Double⟩, ⟨"val2", .Varchar⟩] : List ColumnSpec) ∧
    (∀ n t, ColumnSpec.mk n t ∈ ([⟨"val1", .Double⟩, ⟨"val2", .Varchar⟩] : List ColumnSpec) ↔
      ∃ v, firstNonNullValue ((exFeatures.take (min 100 exFeatures.length)).flatten) n = some v ∧
        tryColumnTypeOfJson v = .ok t) ∧
    (∀ kv ∈ (exFeatures.take (min 100 exFeatures.length)).flatten,
      kv.2 ≠ JValue.null → ∃ t, tryColumnTypeOfJson kv.2 = .ok t) ∧
    (∀ b, tryColumnTypeOfJson (.jbool b) = .ok .Boolean) ∧
    tryColumnTypeOfJson .num = .ok .Double ∧
    tryColumnTypeOfJson .str = .ok .Varchar :=
  geojson_schema_inference exFeatures [⟨"val1", .Double⟩, ⟨"val2", .Varchar⟩] (by decide)
